import Mathlib

/-!
Shallow embedding of the JobBuddy follow-up scheduling engine.

Embedded sources:
* `src/utils/date.utils.ts` — `DateUtils.calculateNextFollowUpDate` and friends.
  Timestamps are epoch milliseconds (`Int`).  An IANA timezone is modelled by
  the function `Int → Int` giving its UTC offset in milliseconds at an instant;
  the runtime (host) zone is a second such function.  `date-fns-tz`'s
  `toZonedTime(d, tz)` returns a `Date` shifted so that rendering it in the
  host zone shows the wall clock of `tz`, i.e. epoch `t` maps to
  `t + tzOffset t - localOffset t`; this matches the repository's own unit
  test (`date.utils.test`: adding 7 days to `2024-03-15T10:00Z` and viewing in
  `America/New_York` from an IST host yields `2024-03-21 20:30:00`).
  `date-fns`'s `addDays` is modelled with fixed-length 86400000 ms days
  (exact for a DST-less host zone, and exact for `days = 0` in any zone).
* `src/models/job-application.model.ts` — the application / follow-up-settings
  data model and its `pre('validate')` / `pre('save')` hooks.
* `src/services/scheduler.service.ts` (the poller version) — `getStatus`,
  `processFollowUps`, `sendFollowUp`, `generateFollowUpContent`.
  The email collaborator is modelled by an oracle `List Bool` consumed one
  entry per `sendFollowUp` invocation (`true` = the send resolves truthy);
  store reads/writes are explicit state passing; a thrown exception is an
  explicit flag.  Retry back-off sleeping only delays in real time and is not
  otherwise observable, so it has no counterpart in the embedding.
-/

namespace JobBuddy

/-- Errors thrown by `DateUtils` (`date.utils.ts`): `Invalid interval` and
`Invalid date`. -/
inductive DateError where
  | invalidInterval
  | invalidDate
deriving DecidableEq

/-- DateUtils.calculateNextFollowUpDate (`date.utils.ts` lines 56-72):
throws `Invalid interval` when `intervalDays < 0`; an integral epoch input is
always a valid date; otherwise `addDays` in UTC then `toZonedTime` into the
target zone, i.e. the result is shifted by the difference between the target
zone offset and the host zone offset at the resulting instant. -/
def calculateNextFollowUpDate (tzOffset localOffset : Int → Int)
    (currentMs intervalDays : Int) : Except DateError Int :=
  if intervalDays < 0 then
    Except.error DateError.invalidInterval
  else
    let nextUtc := currentMs + intervalDays * 86400000
    Except.ok (nextUtc + tzOffset nextUtc - localOffset nextUtc)

/-- DateUtils.isFutureDate (`date.utils.ts` lines 77-86): compares
`toZonedTime date tz > toZonedTime now tz`, both rendered through the same
host zone. -/
def isFutureDate (tzOffset localOffset : Int → Int) (dateMs nowMs : Int) : Bool :=
  decide (dateMs + tzOffset dateMs - localOffset dateMs
            > nowMs + tzOffset nowMs - localOffset nowMs)

/-- JavaScript `x || fallback` for a nullable string: `null`/`undefined` and
the empty string are falsy. -/
def jsOr (x : Option String) (fallback : String) : String :=
  match x with
  | none => fallback
  | some s => if s = "" then fallback else s

/-- JavaScript truthiness of a nullable number: `null`/`undefined` and `0`
are falsy. -/
def jsTruthy (x : Option Int) : Bool :=
  match x with
  | none => false
  | some v => decide (v ≠ 0)

/-- Paragraph text of the first-attempt follow-up body
(`scheduler.service.ts`, `generateFollowUpContent`, `followUpCount === 1`
branch), as a function of the already-defaulted position and company names. -/
def firstFollowUpBody (positionName companyName : String) : String :=
  "<p>I hope this email finds you well. I wanted to follow up on my application for the "
    ++ positionName ++ " role at " ++ companyName
    ++ " that I submitted recently.</p><p>I\x27m still very interested in the opportunity to join your team and contribute my skills and experience to "
    ++ companyName
    ++ ".</p><p>Please let me know if you need any additional information from me or if there are any updates regarding my application.</p><p>Thank you for your time and consideration.</p>"

/-- Paragraph text of the subsequent-attempt follow-up body
(`scheduler.service.ts`, `generateFollowUpContent`, `else` branch). -/
def subsequentFollowUpBody (positionName companyName : String) : String :=
  "<p>I hope you\x27re doing well. I\x27m reaching out again regarding my application for the "
    ++ positionName ++ " position at " ++ companyName
    ++ ".</p><p>I remain very enthusiastic about the opportunity to bring my experience and skills to your team. If there\x27s any additional information I can provide to help with your decision-making process, please don\x27t hesitate to ask.</p><p>I look forward to hearing from you regarding the next steps in the application process.</p><p>Thank you for your consideration.</p>"

/-- SchedulerService.generateFollowUpContent (`scheduler.service.ts` lines
271-294): defaults falsy company/position to the fallback texts and selects
the first-attempt phrasing exactly when `followUpCount === 1`. -/
def generateFollowUpContent (company position : Option String)
    (followUpCount : Int) : String :=
  let companyName := jsOr company ("your company")
  let positionName := jsOr position ("the position")
  if followUpCount = 1 then
    firstFollowUpBody positionName companyName
  else
    subsequentFollowUpBody positionName companyName

/-- Application status enum (`job-application.model.ts`). -/
inductive AppStatus where
  | draft
  | sent
  | responded
  | rejected
  | accepted
  | processing
  | failed
deriving DecidableEq

/-- Embedded follow-up settings subdocument (`job-application.model.ts`,
`FollowUpSettingsSchema`).  `max_count` is optional because the due query
guards it with `$ifNull` (legacy documents may lack it); the `timezone`
string is modelled by the offset function it denotes. -/
structure FollowUpSettings where
  interval_days : Int
  max_count : Option Int
  follow_up_count : Int
  last_follow_up_date : Option Int
  next_follow_up_date : Int
  tzOffset : Int → Int

/-- A job application document, restricted to the fields the scheduler reads
or writes (`job-application.model.ts`). -/
structure Application where
  id : Nat
  user : Nat
  recipient_email : String
  company : Option String
  position : Option String
  subject : String
  sent_at : Option Int
  status : AppStatus
  follow_up_settings : FollowUpSettings
  updated_at : Int

/-- Status enum of a follow-up record (`follow-up.model.ts`). -/
inductive RecordStatus where
  | draft
  | sent
  | failed
  | responded
deriving DecidableEq

/-- A follow-up history record as created by `FollowUp.create` in
`SchedulerService.sendFollowUp`. -/
structure FollowUpRecord where
  user : Nat
  recipient_email : String
  subject : String
  content : String
  company : Option String
  position : Option String
  original_application_id : Nat
  status : RecordStatus
  follow_up_number : Int

/-- The effective max count used by the due query
(`$ifNull: [max_count, 1]`). -/
def effectiveMaxCount (s : FollowUpSettings) : Int :=
  s.max_count.getD 1

/-- The filter of the due query in `SchedulerService.processFollowUps`
(`scheduler.service.ts` lines 136-147): `next_follow_up_date <= now`,
`follow_up_count < ifNull(max_count, 1)`, `status == sent`. -/
def isEligible (now : Int) (a : Application) : Bool :=
  decide (a.follow_up_settings.next_follow_up_date ≤ now)
    && decide (a.follow_up_settings.follow_up_count
                 < effectiveMaxCount a.follow_up_settings)
    && decide (a.status = AppStatus.sent)

/-- The due query of one poll cycle: `find(filter).limit(batchSize)`.  No
sort stage is requested, so documents come back in the store's natural
order; the embedding keeps the store list order. -/
def findDueApplications (store : List Application) (now : Int)
    (batchSize : Nat) : List Application :=
  (store.filter (isEligible now)).take batchSize

/-- Failure modes of one `sendFollowUp` invocation: the email collaborator
resolved falsy (the explicit `throw new Error(...)` at line 260), or
`DateUtils` threw while computing the next due date. -/
inductive SendError where
  | sendFailed
  | dateError (e : DateError)
deriving DecidableEq

/-- Observable outcome of one `sendFollowUp` invocation: the error it threw
(if any), the updated application written by `findByIdAndUpdate` (if
reached), and the follow-up records created. -/
structure SendOutcome where
  error : Option SendError
  updatedApp : Option Application
  created : List FollowUpRecord

/-- SchedulerService.sendFollowUp (`scheduler.service.ts` lines 191-266) for
one application, with the email collaborator's resolution passed in as
`emailOk` and the invocation time as `now`.  Source order is preserved: on a
truthy send result the follow-up record is created first, then the next due
date is computed (which can itself throw, leaving the record created but the
application unchanged), then the application is updated with
`$inc follow_up_count 1` and the new dates. -/
def sendFollowUp (localOffset : Int → Int) (now : Int) (emailOk : Bool)
    (a : Application) : SendOutcome :=
  let s := a.follow_up_settings
  let followUpCount := s.follow_up_count + 1
  let followUpSubject := "Re: " ++ a.subject
  let content := generateFollowUpContent a.company a.position followUpCount
  if emailOk then
    let record : FollowUpRecord :=
      { user := a.user
        recipient_email := a.recipient_email
        subject := followUpSubject
        content := content
        company := a.company
        position := a.position
        original_application_id := a.id
        status := RecordStatus.sent
        follow_up_number := followUpCount }
    match calculateNextFollowUpDate s.tzOffset localOffset now s.interval_days with
    | Except.error e =>
        { error := some (SendError.dateError e), updatedApp := none, created := [record] }
    | Except.ok nextDate =>
        { error := none
          updatedApp := some
            { a with
                follow_up_settings :=
                  { s with
                      follow_up_count := s.follow_up_count + 1
                      last_follow_up_date := some now
                      next_follow_up_date := nextDate }
                updated_at := now }
          created := [record] }
  else
    { error := some SendError.sendFailed, updatedApp := none, created := [] }

/-- Health check thresholds (`scheduler.config.ts`, `health`). -/
structure HealthConfig where
  degradedThreshold : Int
  unhealthyThreshold : Int

/-- The scheduler configuration fields the poll cycle reads
(`scheduler.config.ts`): the poll interval, the batch cap of the due query,
and the retry ceiling `retry.maxAttempts`.  The retry delay parameters only
shape the back-off sleep, which is not observable in the embedding. -/
structure SchedulerConfig where
  pollIntervalMs : Int
  batchSize : Nat
  retryMaxAttempts : Int
  health : HealthConfig

/-- Health status enum of `SchedulerService.getStatus`. -/
inductive Health where
  | healthy
  | degraded
  | unhealthy
deriving DecidableEq

/-- The mutable fields of the `SchedulerService` singleton. -/
structure SchedState where
  isRunning : Bool
  lastRunTime : Option Int
  errorCount : Int
  retryCount : Int
  startupAttempts : Int

/-- The record returned by `SchedulerService.getStatus`. -/
structure SchedStatus where
  isRunning : Bool
  lastRunTime : Option Int
  errorCount : Int
  retryCount : Int
  startupAttempts : Int
  nextRunTime : Option Int
  health : Health

/-- Health derivation of `SchedulerService.getStatus` (`scheduler.service.ts`
lines 107-114): `healthy` unless `errorCount > 0`, in which case the
unhealthy threshold is tested before the degraded one. -/
def healthOf (cfg : HealthConfig) (errorCount : Int) : Health :=
  if errorCount > 0 then
    if errorCount > cfg.unhealthyThreshold then Health.unhealthy
    else if errorCount > cfg.degradedThreshold then Health.degraded
    else Health.healthy
  else Health.healthy

/-- SchedulerService.getStatus (`scheduler.service.ts` lines 93-125):
unconditionally computes `nextRunTime = now + pollIntervalMs` and the health
value, and copies the counters. -/
def getStatus (cfg : SchedulerConfig) (st : SchedState) (now : Int) : SchedStatus :=
  { isRunning := st.isRunning
    lastRunTime := st.lastRunTime
    errorCount := st.errorCount
    retryCount := st.retryCount
    startupAttempts := st.startupAttempts
    nextRunTime := some (now + cfg.pollIntervalMs)
    health := healthOf cfg.health st.errorCount }

/-- Result of the per-application loop of `processFollowUps`: the scheduler
counters, the application updates written by successful dispatches, the
follow-up records created, and whether an exception escaped the loop
(`aborted = true` means remaining batch entries were never reached). -/
structure LoopResult where
  state : SchedState
  updates : List Application
  created : List FollowUpRecord
  aborted : Bool

/-- The `for (const application of applications)` loop of
`SchedulerService.processFollowUps` (`scheduler.service.ts` lines 156-176).
Each `sendFollowUp` invocation consumes one entry of the email oracle
`outcomes` (exhaustion reads as a failing send).  A first failure is caught:
`errorCount` is incremented and, when `retryCount < maxRetryAttempts`,
`retryCount` is incremented and `sendFollowUp` is re-invoked once after the
back-off sleep.  That re-invocation is not guarded by any inner handler, so
its failure escapes the loop; when no retry is attempted the catch block
falls through to the next application. -/
def processLoop (localOffset : Int → Int) (maxRetryAttempts : Int) (now : Int) :
    SchedState → List Application → List Bool → LoopResult
  | st, [], _ => { state := st, updates := [], created := [], aborted := false }
  | st, a :: rest, outcomes =>
    let r1 := sendFollowUp localOffset now (outcomes.headD false) a
    match r1.error with
    | none =>
      let tail := processLoop localOffset maxRetryAttempts now st rest outcomes.tail
      { state := tail.state
        updates := r1.updatedApp.toList ++ tail.updates
        created := r1.created ++ tail.created
        aborted := tail.aborted }
    | some _ =>
      if st.retryCount < maxRetryAttempts then
        let st2 := { st with errorCount := st.errorCount + 1,
                             retryCount := st.retryCount + 1 }
        let r2 := sendFollowUp localOffset now (outcomes.tail.headD false) a
        match r2.error with
        | none =>
          let tail := processLoop localOffset maxRetryAttempts now st2 rest outcomes.tail.tail
          { state := tail.state
            updates := r2.updatedApp.toList ++ tail.updates
            created := r1.created ++ r2.created ++ tail.created
            aborted := tail.aborted }
        | some _ =>
          { state := st2
            updates := r2.updatedApp.toList
            created := r1.created ++ r2.created
            aborted := true }
      else
        let st1 := { st with errorCount := st.errorCount + 1 }
        let tail := processLoop localOffset maxRetryAttempts now st1 rest outcomes.tail
        { state := tail.state
          updates := tail.updates
          created := r1.created ++ tail.created
          aborted := tail.aborted }

/-- Application of the `findByIdAndUpdate` writes of one cycle to the store:
each stored document whose id matches an update is replaced by it (within a
cycle each application is fetched at most once, so the `$inc` on the stored
value coincides with the incremented fetched copy). -/
def applyUpdates (store updates : List Application) : List Application :=
  store.map fun s =>
    match updates.find? (fun u => u.id == s.id) with
    | some u => u
    | none => s

/-- Observable outcome of one `processFollowUps` invocation: the scheduler
counters, the resulting store contents, the follow-up records created, and
whether the invocation re-raised an exception to its caller. -/
structure CycleResult where
  state : SchedState
  store : List Application
  created : List FollowUpRecord
  thrown : Bool

/-- End of one poll cycle, from the loop's outcome: an exception that escaped
the loop reaches the outer catch (`errorCount` incremented, re-raised);
otherwise the clean-completion reset of `errorCount` and `retryCount` at
lines 179-180 runs. -/
def cycleFromLoop (store : List Application) (r : LoopResult) : CycleResult :=
  if r.aborted then
    { state := { r.state with errorCount := r.state.errorCount + 1 }
      store := applyUpdates store r.updates
      created := r.created
      thrown := true }
  else
    { state := { r.state with errorCount := 0, retryCount := 0 }
      store := applyUpdates store r.updates
      created := r.created
      thrown := false }

/-- SchedulerService.processFollowUps (`scheduler.service.ts` lines 130-186),
one poll cycle: record `lastRunTime`, run the due query (`queryOk = false`
models a store failure thrown by the query, which the outer catch turns into
an `errorCount` increment and a re-raise), process the batch, and finish per
`cycleFromLoop`. -/
def processFollowUps (cfg : SchedulerConfig) (localOffset : Int → Int)
    (now : Int) (st : SchedState) (store : List Application)
    (queryOk : Bool) (outcomes : List Bool) : CycleResult :=
  let st0 := { st with lastRunTime := some now }
  if queryOk then
    cycleFromLoop store
      (processLoop localOffset cfg.retryMaxAttempts now st0
        (findDueApplications store now cfg.batchSize) outcomes)
  else
    { state := { st0 with errorCount := st0.errorCount + 1 }
      store := store
      created := []
      thrown := true }

/-- Fields the `FollowUpSettingsSchema` hooks can invalidate
(`job-application.model.ts`, `pre('validate')`). -/
inductive SettingsField where
  | intervalDays
  | maxCount
  | followUpCount
  | nextFollowUpDate
deriving DecidableEq

/-- A follow-up settings subdocument as seen by the mongoose hooks: unlike
the stored form, `next_follow_up_date` may still be unset (`none`) before
the save hook populates it. -/
structure FollowUpSettingsDoc where
  interval_days : Int
  max_count : Int
  follow_up_count : Int
  last_follow_up_date : Option Int
  next_follow_up_date : Option Int
  tzOffset : Int → Int

/-- FollowUpSettingsSchema.pre validate hook (`job-application.model.ts`
lines 256-287): returns the invalidated fields in source order.  The
future-date check on `next_follow_up_date` runs only under the JavaScript
truthiness test `if (settings.next_follow_up_date)`; an integral timestamp
never takes the `Invalid next follow-up date` catch branch. -/
def validateFollowUpSettings (localOffset : Int → Int) (now : Int)
    (s : FollowUpSettingsDoc) : List SettingsField :=
  (if s.interval_days < 1 then [SettingsField.intervalDays] else [])
    ++ (if s.max_count < 1 then [SettingsField.maxCount] else [])
    ++ (if s.follow_up_count < 0 then [SettingsField.followUpCount] else [])
    ++ (if jsTruthy s.next_follow_up_date then
          if isFutureDate s.tzOffset localOffset
               (s.next_follow_up_date.getD 0) now then []
          else [SettingsField.nextFollowUpDate]
        else [])

/-- FollowUpSettingsSchema.pre save hook (`job-application.model.ts` lines
204-213): a falsy `next_follow_up_date` is populated from
`DateUtils.calculateNextFollowUpDate(new Date(), interval_days, timezone)`
(whose `Invalid interval` throw propagates); a truthy one is kept. -/
def preSaveFollowUpSettings (localOffset : Int → Int) (now : Int)
    (s : FollowUpSettingsDoc) : Except DateError FollowUpSettingsDoc :=
  if jsTruthy s.next_follow_up_date then
    Except.ok s
  else
    (calculateNextFollowUpDate s.tzOffset localOffset now s.interval_days).map
      fun d => { s with next_follow_up_date := some d }

/-! Helper lemmas shared by several results below. -/

/-- A falsy email-send result takes the `throw` branch before any record is
created or any update written. -/
theorem sendFollowUp_fail_eq (localOffset : Int → Int) (now : Int) (a : Application) :
    sendFollowUp localOffset now false a
      = { error := some SendError.sendFailed, updatedApp := none, created := [] } := rfl

/-- The updated application written by a successful dispatch, as a function
of the fetched one. -/
def successUpdate (localOffset : Int → Int) (now : Int) (a : Application) : Application :=
  let s := a.follow_up_settings
  let nextUtc := now + s.interval_days * 86400000
  { a with
      follow_up_settings :=
        { s with
            follow_up_count := s.follow_up_count + 1
            last_follow_up_date := some now
            next_follow_up_date := nextUtc + s.tzOffset nextUtc - localOffset nextUtc }
      updated_at := now }

/-- The follow-up record created by a dispatch whose email send resolved
truthy. -/
def sentRecord (a : Application) : FollowUpRecord :=
  { user := a.user
    recipient_email := a.recipient_email
    subject := "Re: " ++ a.subject
    content := generateFollowUpContent a.company a.position
      (a.follow_up_settings.follow_up_count + 1)
    company := a.company
    position := a.position
    original_application_id := a.id
    status := RecordStatus.sent
    follow_up_number := a.follow_up_settings.follow_up_count + 1 }

/-- A truthy email-send result with a non-negative interval creates the
record and writes the incremented update. -/
theorem sendFollowUp_success_eq (localOffset : Int → Int) (now : Int) (a : Application)
    (h : ¬ a.follow_up_settings.interval_days < 0) :
    sendFollowUp localOffset now true a
      = { error := none
          updatedApp := some (successUpdate localOffset now a)
          created := [sentRecord a] } := by
  unfold sendFollowUp calculateNextFollowUpDate
  simp only [if_neg h]
  rfl

/-! Claim C8. -/

/-- C8: `getStatus` always returns a non-null `nextRunTime` equal to the
current time plus the configured poll interval, for every scheduler state —
in particular also for the same state with `isRunning` forced to `false`
(scheduler stopped, no run will actually occur). -/
theorem getStatus_nextRunTime_always (cfg : SchedulerConfig) (st : SchedState) (now : Int) :
    (getStatus cfg st now).nextRunTime = some (now + cfg.pollIntervalMs) ∧
    (getStatus cfg { st with isRunning := false } now).nextRunTime
      = some (now + cfg.pollIntervalMs) :=
  ⟨rfl, rfl⟩

/-! Claim C6. -/

/-- C6: the health value returned by `getStatus` is the piecewise function of
`errorCount`: `healthy` when it is 0; `healthy` when positive but at most the
degraded threshold; `degraded` when above the degraded threshold but at most
the unhealthy threshold; `unhealthy` when above the unhealthy threshold —
under the claim's assumption that the thresholds are ordered (and, as in the
configuration parsing, non-negative). -/
theorem getStatus_health_piecewise (cfg : SchedulerConfig) (st : SchedState) (now : Int)
    (h0 : 0 ≤ cfg.health.degradedThreshold)
    (h1 : cfg.health.degradedThreshold ≤ cfg.health.unhealthyThreshold) :
    (st.errorCount = 0 → (getStatus cfg st now).health = Health.healthy) ∧
    (0 < st.errorCount → st.errorCount ≤ cfg.health.degradedThreshold →
        (getStatus cfg st now).health = Health.healthy) ∧
    (cfg.health.degradedThreshold < st.errorCount →
        st.errorCount ≤ cfg.health.unhealthyThreshold →
        (getStatus cfg st now).health = Health.degraded) ∧
    (cfg.health.unhealthyThreshold < st.errorCount →
        (getStatus cfg st now).health = Health.unhealthy) := by
  refine ⟨fun h => ?_, fun ha hb => ?_, fun ha hb => ?_, fun h => ?_⟩ <;>
    simp only [getStatus, healthOf] <;>
    split_ifs <;> first | rfl | (exfalso; omega)

/-- C6 witness: with the default thresholds (degraded 3, unhealthy 5),
`errorCount = 4` yields `degraded`. -/
theorem getStatus_health_piecewise_witness :
    (getStatus
        { pollIntervalMs := 10000, batchSize := 50, retryMaxAttempts := 3,
          health := { degradedThreshold := 3, unhealthyThreshold := 5 } }
        { isRunning := true, lastRunTime := none, errorCount := 4,
          retryCount := 0, startupAttempts := 0 } 0).health = Health.degraded :=
  (getStatus_health_piecewise _ _ 0 (by decide) (by decide)).2.2.1 (by decide) (by decide)

/-! Claim C4. -/

/-- C4 counterexample: take the host zone to be UTC and the target timezone
one at constant offset UTC+1 (e.g. Europe/Paris over a winter range).  Adding
zero calendar days to epoch 0 returns 3600000, not 0: `toZonedTime` shifts
the returned value by the zone's UTC offset, so zero-day addition is not the
identity and the result is not the absolute epoch instant the claim states.
(The repository's own `date.utils` unit test exhibits the same shift:
adding 7 days to `2024-03-15T10:00Z` is expected to land at wall clock
`2024-03-21 20:30:00` in `America/New_York`, 9.5 hours short of the
absolute instant.) -/
theorem calculateNextFollowUpDate_zero_not_identity :
    calculateNextFollowUpDate (fun _ => 3600000) (fun _ => 0) 0 0
        = Except.ok 3600000 ∧ (3600000 : Int) ≠ 0 :=
  ⟨rfl, by decide⟩

/-- C4 amended: `calculateNextFollowUpDate` fails with `InvalidInterval`
exactly when `days < 0`; for `days = 0` it returns `epochMs` shifted by the
difference between the target zone's and the host zone's UTC offsets (so the
zero-day addition is the identity only when those offsets agree, e.g. when
the target zone is the host zone); in general a non-negative `days` yields
the fixed-length-day sum shifted the same way. -/
theorem calculateNextFollowUpDate_spec (tzOffset localOffset : Int → Int)
    (epochMs days : Int) :
    (calculateNextFollowUpDate tzOffset localOffset epochMs days
        = Except.error DateError.invalidInterval ↔ days < 0) ∧
    (calculateNextFollowUpDate tzOffset localOffset epochMs 0
        = Except.ok (epochMs + tzOffset epochMs - localOffset epochMs)) ∧
    (0 ≤ days →
        calculateNextFollowUpDate tzOffset localOffset epochMs days
          = Except.ok (epochMs + days * 86400000
              + tzOffset (epochMs + days * 86400000)
              - localOffset (epochMs + days * 86400000))) := by
  refine ⟨⟨fun h => ?_, fun h => ?_⟩, ?_, fun h => ?_⟩
  · by_contra hd
    rw [calculateNextFollowUpDate, if_neg hd] at h
    exact Except.noConfusion h
  · rw [calculateNextFollowUpDate, if_pos h]
  · show calculateNextFollowUpDate tzOffset localOffset epochMs 0 = _
    rw [calculateNextFollowUpDate, if_neg (by omega)]
    norm_num
  · rw [calculateNextFollowUpDate, if_neg (by omega)]

/-! Claim C10. -/

/-- C10: `generateFollowUpContent` is a pure function of company, position
and attempt number (it is a function of exactly those arguments):
`followUpCount = 1` selects the first-attempt phrasing and every
`followUpCount ≠ 1` selects the one subsequent-attempt phrasing (the same
body for all such counts), with a missing (`none`) or empty company replaced
by `your company` and a missing or empty position by `the position` in the
generated body. -/
theorem generateFollowUpContent_spec (company position : Option String) (n m : Int) :
    (generateFollowUpContent company position 1
        = firstFollowUpBody (jsOr position ("the position"))
            (jsOr company ("your company"))) ∧
    (n ≠ 1 → generateFollowUpContent company position n
        = subsequentFollowUpBody (jsOr position ("the position"))
            (jsOr company ("your company"))) ∧
    (n ≠ 1 → m ≠ 1 → generateFollowUpContent company position n
        = generateFollowUpContent company position m) ∧
    (company = none ∨ company = some "" →
        jsOr company ("your company") = "your company") ∧
    (position = none ∨ position = some "" →
        jsOr position ("the position") = "the position") := by
  refine ⟨?_, fun hn => ?_, fun hn hm => ?_, fun hc => ?_, fun hp => ?_⟩
  · rw [generateFollowUpContent, if_pos rfl]
  · rw [generateFollowUpContent, if_neg hn]
  · rw [generateFollowUpContent, if_neg hn, generateFollowUpContent, if_neg hm]
  · rcases hc with h | h <;> subst h <;> rfl
  · rcases hp with h | h <;> subst h <;> rfl

/-! Claim C1. -/

/-- C1: for an eligible application processed by `sendFollowUp`: a failed
email send writes no update (so `follow_up_count` and `next_follow_up_date`
are left unchanged) and creates no follow-up record at all, in particular
none with status `sent`; a successful send writes exactly one update, with
`follow_up_count` incremented by exactly 1 and `next_follow_up_date`
strictly greater than its previous (due, i.e. `≤ now`) value.  The strict
increase uses the facts that the validated `interval_days` is at least 1,
that the host runs in UTC (the `schedulerConfig.timezone` default, so the
host offset is 0) and that no IANA zone offset is below UTC−12. -/
theorem sendFollowUp_counter_discipline (localOffset : Int → Int) (now : Int)
    (a : Application)
    (hdue : a.follow_up_settings.next_follow_up_date ≤ now)
    (hint : 1 ≤ a.follow_up_settings.interval_days)
    (hlocal : ∀ t, localOffset t = 0)
    (htz : ∀ t, -43200000 ≤ a.follow_up_settings.tzOffset t) :
    ((sendFollowUp localOffset now false a).updatedApp = none ∧
     (sendFollowUp localOffset now false a).created = []) ∧
    (∃ a2, (sendFollowUp localOffset now true a).updatedApp = some a2 ∧
       a2.follow_up_settings.follow_up_count
         = a.follow_up_settings.follow_up_count + 1 ∧
       a.follow_up_settings.next_follow_up_date
         < a2.follow_up_settings.next_follow_up_date) := by
  refine ⟨⟨rfl, rfl⟩, successUpdate localOffset now a, ?_, rfl, ?_⟩
  · rw [sendFollowUp_success_eq localOffset now a (by omega)]
  · show a.follow_up_settings.next_follow_up_date
      < now + a.follow_up_settings.interval_days * 86400000
          + a.follow_up_settings.tzOffset
              (now + a.follow_up_settings.interval_days * 86400000)
          - localOffset (now + a.follow_up_settings.interval_days * 86400000)
    have hk := htz (now + a.follow_up_settings.interval_days * 86400000)
    have hl := hlocal (now + a.follow_up_settings.interval_days * 86400000)
    omega

/-- A concrete due application in a UTC−5 zone (offset constant over the
relevant range, e.g. America/New_York in winter), due at 900. -/
def dueSampleApp : Application :=
  { id := 7, user := 1, recipient_email := "r@example.com",
    company := some "Acme", position := some "Dev",
    subject := "Application", sent_at := some 0,
    status := AppStatus.sent,
    follow_up_settings :=
      { interval_days := 3, max_count := some 4, follow_up_count := 1,
        last_follow_up_date := none, next_follow_up_date := 900,
        tzOffset := fun _ => -18000000 },
    updated_at := 0 }

/-- C1 witness: the discipline at the concrete application `dueSampleApp`
processed at time 1000 on a UTC host. -/
theorem sendFollowUp_counter_discipline_witness :
    ((sendFollowUp (fun _ => 0) 1000 false dueSampleApp).updatedApp = none ∧
     (sendFollowUp (fun _ => 0) 1000 false dueSampleApp).created = []) ∧
    (∃ a2, (sendFollowUp (fun _ => 0) 1000 true dueSampleApp).updatedApp = some a2 ∧
       a2.follow_up_settings.follow_up_count
         = dueSampleApp.follow_up_settings.follow_up_count + 1 ∧
       dueSampleApp.follow_up_settings.next_follow_up_date
         < a2.follow_up_settings.next_follow_up_date) :=
  sendFollowUp_counter_discipline (fun _ => 0) 1000 dueSampleApp
    (by decide) (by decide) (fun _ => rfl)
    (fun _ => show (-43200000 : Int) ≤ -18000000 by decide)

/-! Claim C2. -/

/-- A stored application eligible at time 10 whose next due date is 5. -/
def laterDueApp : Application :=
  { id := 1, user := 0, recipient_email := "a@example.com", company := none,
    position := none, subject := "s", sent_at := none,
    status := AppStatus.sent,
    follow_up_settings :=
      { interval_days := 3, max_count := some 5, follow_up_count := 0,
        last_follow_up_date := none, next_follow_up_date := 5,
        tzOffset := fun _ => 0 },
    updated_at := 0 }

/-- A stored application eligible at time 10 whose next due date is 3,
stored after `laterDueApp`. -/
def earlierDueApp : Application :=
  { id := 2, user := 0, recipient_email := "b@example.com", company := none,
    position := none, subject := "s", sent_at := none,
    status := AppStatus.sent,
    follow_up_settings :=
      { interval_days := 3, max_count := some 5, follow_up_count := 0,
        last_follow_up_date := none, next_follow_up_date := 3,
        tzOffset := fun _ => 0 },
    updated_at := 0 }

/-- C2 counterexample: the due query has no sort stage, so with a store
holding a due application at `next_follow_up_date = 5` before one at 3, the
batch comes back as `[5, 3]` — not ordered by `next_follow_up_date`
ascending as the claim states. -/
theorem findDueApplications_not_sorted :
    (findDueApplications [laterDueApp, earlierDueApp] 10 50).map
        (fun a => a.follow_up_settings.next_follow_up_date) = [5, 3] ∧
    ¬ List.Chain' (fun x y : Int => x ≤ y)
        ((findDueApplications [laterDueApp, earlierDueApp] 10 50).map
          (fun a => a.follow_up_settings.next_follow_up_date)) := by
  have h : (findDueApplications [laterDueApp, earlierDueApp] 10 50).map
      (fun a => a.follow_up_settings.next_follow_up_date) = [5, 3] := rfl
  refine ⟨h, ?_⟩
  rw [h]
  intro hc
  exact absurd (List.chain'_cons.mp hc).1 (by decide)

/-- C2 amended: every poll cycle's store query returns only applications
satisfying the eligibility invariant (`status = sent`,
`next_follow_up_date ≤ now`, `follow_up_count < ifNull(max_count, 1)`) and
at most the configured batch size of them, but in store (natural) order: no
ordering by `next_follow_up_date` is requested, the result is simply a
sublist of the store. -/
theorem findDueApplications_spec (store : List Application) (now : Int)
    (batchSize : Nat) :
    (∀ a ∈ findDueApplications store now batchSize,
        a.status = AppStatus.sent ∧
        a.follow_up_settings.next_follow_up_date ≤ now ∧
        a.follow_up_settings.follow_up_count
          < effectiveMaxCount a.follow_up_settings) ∧
    (findDueApplications store now batchSize).length ≤ batchSize ∧
    (findDueApplications store now batchSize).Sublist store := by
  refine ⟨fun a ha => ?_, ?_, ?_⟩
  · have hmem : a ∈ store.filter (isEligible now) :=
      List.take_subset _ _ ha
    have he : isEligible now a = true := List.of_mem_filter hmem
    rw [isEligible, Bool.and_assoc, Bool.and_eq_true, Bool.and_eq_true,
      decide_eq_true_eq, decide_eq_true_eq, decide_eq_true_eq] at he
    exact ⟨he.2.2, he.1, he.2.1⟩
  · exact List.length_take_le batchSize _
  · exact (List.take_sublist _ _).trans (List.filter_sublist _)

/-! Claim C9. -/

/-- C9: for a follow-up settings document whose `next_follow_up_date` is
falsy (unset/null, modelled `none`, or `0`): the `must be in the future`
validation check is skipped — the validate hook never invalidates the
`next_follow_up_date` field, since the check runs only under the JavaScript
truthiness guard — and the save hook auto-populates the field with
`calculateNextFollowUpDate(now, interval_days, timezone)` and succeeds
rather than rejecting the save (given the non-negative `interval_days` the
same validate hook enforces). -/
theorem falsyNextDate_skip_and_populate (localOffset : Int → Int) (now : Int)
    (s : FollowUpSettingsDoc)
    (hfalsy : s.next_follow_up_date = none ∨ s.next_follow_up_date = some 0)
    (hint : 0 ≤ s.interval_days) :
    SettingsField.nextFollowUpDate ∉ validateFollowUpSettings localOffset now s ∧
    (∃ v, calculateNextFollowUpDate s.tzOffset localOffset now s.interval_days
            = Except.ok v ∧
          preSaveFollowUpSettings localOffset now s
            = Except.ok { s with next_follow_up_date := some v }) := by
  have htr : jsTruthy s.next_follow_up_date = false := by
    rcases hfalsy with h | h <;> rw [h] <;> rfl
  have hcalc : calculateNextFollowUpDate s.tzOffset localOffset now s.interval_days
      = Except.ok (now + s.interval_days * 86400000
          + s.tzOffset (now + s.interval_days * 86400000)
          - localOffset (now + s.interval_days * 86400000)) := by
    rw [calculateNextFollowUpDate, if_neg (by omega)]
  refine ⟨?_, _, hcalc, ?_⟩
  · intro hmem
    rw [validateFollowUpSettings, htr] at hmem
    simp only [Bool.false_eq_true, if_false, List.append_nil, List.mem_append] at hmem
    rcases hmem with (h | h) | h <;> revert h <;> split_ifs <;> simp
  · rw [preSaveFollowUpSettings, if_neg (by simp [htr]), hcalc]
    rfl

/-- A settings document created without a `next_follow_up_date`. -/
def unsetNextDoc : FollowUpSettingsDoc :=
  { interval_days := 3, max_count := 1, follow_up_count := 0,
    last_follow_up_date := none, next_follow_up_date := none,
    tzOffset := fun _ => 0 }

/-- C9 witness: the concrete document `unsetNextDoc` validated and saved at
time 500 on a UTC host. -/
theorem falsyNextDate_skip_and_populate_witness :
    SettingsField.nextFollowUpDate ∉ validateFollowUpSettings (fun _ => 0) 500 unsetNextDoc ∧
    (∃ v, calculateNextFollowUpDate unsetNextDoc.tzOffset (fun _ => 0) 500
            unsetNextDoc.interval_days = Except.ok v ∧
          preSaveFollowUpSettings (fun _ => 0) 500 unsetNextDoc
            = Except.ok { unsetNextDoc with next_follow_up_date := some v }) :=
  falsyNextDate_skip_and_populate (fun _ => 0) 500 unsetNextDoc
    (Or.inl rfl) (by decide)

/-! Helper lemmas about the per-application loop. -/

/-- Either a dispatch writes no update, or it threw nothing and wrote
exactly the incremented update. -/
theorem sendFollowUp_cases (localOffset : Int → Int) (now : Int) (emailOk : Bool)
    (a : Application) :
    (sendFollowUp localOffset now emailOk a).updatedApp = none ∨
    ((sendFollowUp localOffset now emailOk a).error = none ∧
     (sendFollowUp localOffset now emailOk a).updatedApp
       = some (successUpdate localOffset now a)) := by
  cases emailOk with
  | false => exact Or.inl rfl
  | true =>
    by_cases hneg : a.follow_up_settings.interval_days < 0
    · left
      unfold sendFollowUp calculateNextFollowUpDate
      simp only [if_pos hneg]
      rfl
    · right
      rw [sendFollowUp_success_eq localOffset now a hneg]
      exact ⟨rfl, rfl⟩

/-- The loop never touches `startupAttempts`, `isRunning` or
`lastRunTime`. -/
theorem processLoop_preserved_fields (localOffset : Int → Int) (m now : Int) :
    ∀ (batch : List Application) (st : SchedState) (outcomes : List Bool),
      (processLoop localOffset m now st batch outcomes).state.startupAttempts
          = st.startupAttempts ∧
      (processLoop localOffset m now st batch outcomes).state.isRunning
          = st.isRunning ∧
      (processLoop localOffset m now st batch outcomes).state.lastRunTime
          = st.lastRunTime := by
  intro batch
  induction batch with
  | nil => intro st outcomes; exact ⟨rfl, rfl, rfl⟩
  | cons a rest ih =>
    intro st outcomes
    cases h1 : (sendFollowUp localOffset now (outcomes.headD false) a).error with
    | none =>
      rw [processLoop]
      simp only [h1]
      exact ih st outcomes.tail
    | some e =>
      by_cases hr : st.retryCount < m
      · cases h2 : (sendFollowUp localOffset now (outcomes.tail.headD false) a).error with
        | none =>
          rw [processLoop]
          simp only [h1, h2, if_pos hr]
          exact ih _ outcomes.tail.tail
        | some e2 =>
          rw [processLoop]
          simp only [h1, h2, if_pos hr]
          simp
      · rw [processLoop]
        simp only [h1, if_neg hr]
        exact ih _ outcomes.tail

/-- Every update the loop writes is the incremented update of some batch
member. -/
theorem processLoop_updates_mem (localOffset : Int → Int) (m now : Int) :
    ∀ (batch : List Application) (st : SchedState) (outcomes : List Bool)
      (u : Application),
      u ∈ (processLoop localOffset m now st batch outcomes).updates →
      ∃ b ∈ batch, u = successUpdate localOffset now b := by
  intro batch
  induction batch with
  | nil => intro st outcomes u hu; exact absurd hu (by simp [processLoop])
  | cons a rest ih =>
    intro st outcomes u hu
    cases h1 : (sendFollowUp localOffset now (outcomes.headD false) a).error with
    | none =>
      rw [processLoop] at hu
      simp only [h1] at hu
      rcases List.mem_append.mp hu with hl | hr
      · rcases sendFollowUp_cases localOffset now (outcomes.headD false) a with hc | hc
        · rw [hc] at hl; exact absurd hl (by simp)
        · rw [hc.2] at hl
          simp only [Option.toList_some, List.mem_singleton] at hl
          exact ⟨a, List.mem_cons_self a rest, hl⟩
      · obtain ⟨b, hb, he⟩ := ih st outcomes.tail u hr
        exact ⟨b, List.mem_cons_of_mem a hb, he⟩
    | some e =>
      by_cases hrc : st.retryCount < m
      · cases h2 : (sendFollowUp localOffset now (outcomes.tail.headD false) a).error with
        | none =>
          rw [processLoop] at hu
          simp only [h1, h2, if_pos hrc] at hu
          rcases List.mem_append.mp hu with hl | hr
          · rcases sendFollowUp_cases localOffset now (outcomes.tail.headD false) a with hc | hc
            · rw [hc] at hl; exact absurd hl (by simp)
            · rw [hc.2] at hl
              simp only [Option.toList_some, List.mem_singleton] at hl
              exact ⟨a, List.mem_cons_self a rest, hl⟩
          · obtain ⟨b, hb, he⟩ := ih _ outcomes.tail.tail u hr
            exact ⟨b, List.mem_cons_of_mem a hb, he⟩
        | some e2 =>
          rw [processLoop] at hu
          simp only [h1, h2, if_pos hrc] at hu
          rcases sendFollowUp_cases localOffset now (outcomes.tail.headD false) a with hc | hc
          · rw [hc] at hu; exact absurd hu (by simp)
          · rw [hc.1] at h2; exact absurd h2 (by simp)
      · rw [processLoop] at hu
        simp only [h1, if_neg hrc] at hu
        obtain ⟨b, hb, he⟩ := ih _ outcomes.tail u hu
        exact ⟨b, List.mem_cons_of_mem a hb, he⟩

/-- Projections of `cycleFromLoop` by whether the loop aborted. -/
theorem cycleFromLoop_state (store : List Application) (r : LoopResult) :
    (r.aborted = true →
        (cycleFromLoop store r).thrown = true ∧
        (cycleFromLoop store r).state.errorCount = r.state.errorCount + 1 ∧
        (cycleFromLoop store r).state.retryCount = r.state.retryCount) ∧
    (r.aborted = false →
        (cycleFromLoop store r).thrown = false ∧
        (cycleFromLoop store r).state.errorCount = 0 ∧
        (cycleFromLoop store r).state.retryCount = 0) ∧
    (cycleFromLoop store r).state.startupAttempts = r.state.startupAttempts ∧
    (cycleFromLoop store r).state.lastRunTime = r.state.lastRunTime ∧
    (cycleFromLoop store r).store = applyUpdates store r.updates := by
  rw [cycleFromLoop]
  cases h : r.aborted with
  | true => exact ⟨fun _ => ⟨rfl, rfl, rfl⟩, fun hc => absurd hc (by simp), rfl, rfl, rfl⟩
  | false => exact ⟨fun hc => absurd hc (by simp), fun _ => ⟨rfl, rfl, rfl⟩, rfl, rfl, rfl⟩

/-! Claim C7. -/

/-- C7 counterexample: a clean poll cycle (empty store, query succeeds, no
exception) resets `errorCount` and `retryCount` to 0 but leaves
`startupAttempts` at its prior value 2: `startupAttempts` is not reset by a
successful poll cycle, contrary to the claim (it is reset only by a
successful `start()`). -/
theorem processFollowUps_startup_not_reset :
    (processFollowUps
        { pollIntervalMs := 10000, batchSize := 50, retryMaxAttempts := 3,
          health := { degradedThreshold := 3, unhealthyThreshold := 5 } }
        (fun _ => 0) 0
        { isRunning := true, lastRunTime := none, errorCount := 7,
          retryCount := 2, startupAttempts := 2 }
        [] true []).thrown = false ∧
    (processFollowUps
        { pollIntervalMs := 10000, batchSize := 50, retryMaxAttempts := 3,
          health := { degradedThreshold := 3, unhealthyThreshold := 5 } }
        (fun _ => 0) 0
        { isRunning := true, lastRunTime := none, errorCount := 7,
          retryCount := 2, startupAttempts := 2 }
        [] true []).state.errorCount = 0 ∧
    (processFollowUps
        { pollIntervalMs := 10000, batchSize := 50, retryMaxAttempts := 3,
          health := { degradedThreshold := 3, unhealthyThreshold := 5 } }
        (fun _ => 0) 0
        { isRunning := true, lastRunTime := none, errorCount := 7,
          retryCount := 2, startupAttempts := 2 }
        [] true []).state.retryCount = 0 ∧
    (processFollowUps
        { pollIntervalMs := 10000, batchSize := 50, retryMaxAttempts := 3,
          health := { degradedThreshold := 3, unhealthyThreshold := 5 } }
        (fun _ => 0) 0
        { isRunning := true, lastRunTime := none, errorCount := 7,
          retryCount := 2, startupAttempts := 2 }
        [] true []).state.startupAttempts = 2 ∧
    (2 : Int) ≠ 0 :=
  ⟨rfl, rfl, rfl, rfl, by decide⟩

/-- C7 amended: `errorCount` and `retryCount` (but not `startupAttempts`,
which only a successful `start()` resets) are reset to 0 on clean completion
of the whole batch; if the batch query itself fails, `errorCount` is
incremented, the error is re-raised to the caller, and no reset occurs
(`retryCount` and `startupAttempts` keep their values). -/
theorem processFollowUps_reset_discipline (cfg : SchedulerConfig)
    (localOffset : Int → Int) (now : Int) (st : SchedState)
    (store : List Application) (outcomes : List Bool) :
    ((processFollowUps cfg localOffset now st store true outcomes).thrown = false →
        (processFollowUps cfg localOffset now st store true outcomes).state.errorCount = 0 ∧
        (processFollowUps cfg localOffset now st store true outcomes).state.retryCount = 0) ∧
    (processFollowUps cfg localOffset now st store true outcomes).state.startupAttempts
        = st.startupAttempts ∧
    (processFollowUps cfg localOffset now st store false outcomes).thrown = true ∧
    (processFollowUps cfg localOffset now st store false outcomes).state.errorCount
        = st.errorCount + 1 ∧
    (processFollowUps cfg localOffset now st store false outcomes).state.retryCount
        = st.retryCount ∧
    (processFollowUps cfg localOffset now st store false outcomes).state.startupAttempts
        = st.startupAttempts := by
  have hloop := processLoop_preserved_fields localOffset cfg.retryMaxAttempts now
    (findDueApplications store now cfg.batchSize)
    { st with lastRunTime := some now } outcomes
  have hcyc := cycleFromLoop_state store
    (processLoop localOffset cfg.retryMaxAttempts now { st with lastRunTime := some now }
      (findDueApplications store now cfg.batchSize) outcomes)
  refine ⟨fun h => ?_, ?_, rfl, rfl, rfl, rfl⟩
  · rcases hb : (processLoop localOffset cfg.retryMaxAttempts now
        { st with lastRunTime := some now }
        (findDueApplications store now cfg.batchSize) outcomes).aborted with _ | _
    · exact ⟨(hcyc.2.1 hb).2.1, (hcyc.2.1 hb).2.2⟩
    · have h2 : (cycleFromLoop store
          (processLoop localOffset cfg.retryMaxAttempts now
            { st with lastRunTime := some now }
            (findDueApplications store now cfg.batchSize) outcomes)).thrown = false := h
      rw [(hcyc.1 hb).1] at h2
      exact absurd h2 (by simp)
  · exact (hcyc.2.2.1).trans hloop.1

/-! Claim C3. -/

/-- C3 counterexample: two applications are due; the first application's
send fails and its single synchronous retry fails as well.  The cycle is
aborted: the exception escapes the loop (`thrown = true`), `errorCount` ends
at 2 (inner catch plus outer catch), and the second application is never
dispatched — no follow-up record is created and the store is unchanged.
A dispatch failure whose retry also fails therefore does abort the batch,
contrary to the claim. -/
theorem processFollowUps_retry_failure_aborts_batch :
    (processFollowUps
        { pollIntervalMs := 10000, batchSize := 50, retryMaxAttempts := 3,
          health := { degradedThreshold := 3, unhealthyThreshold := 5 } }
        (fun _ => 0) 10
        { isRunning := true, lastRunTime := none, errorCount := 0,
          retryCount := 0, startupAttempts := 0 }
        [laterDueApp, earlierDueApp] true [false, false]).thrown = true ∧
    (processFollowUps
        { pollIntervalMs := 10000, batchSize := 50, retryMaxAttempts := 3,
          health := { degradedThreshold := 3, unhealthyThreshold := 5 } }
        (fun _ => 0) 10
        { isRunning := true, lastRunTime := none, errorCount := 0,
          retryCount := 0, startupAttempts := 0 }
        [laterDueApp, earlierDueApp] true [false, false]).state.errorCount = 2 ∧
    (processFollowUps
        { pollIntervalMs := 10000, batchSize := 50, retryMaxAttempts := 3,
          health := { degradedThreshold := 3, unhealthyThreshold := 5 } }
        (fun _ => 0) 10
        { isRunning := true, lastRunTime := none, errorCount := 0,
          retryCount := 0, startupAttempts := 0 }
        [laterDueApp, earlierDueApp] true [false, false]).created = [] ∧
    (processFollowUps
        { pollIntervalMs := 10000, batchSize := 50, retryMaxAttempts := 3,
          health := { degradedThreshold := 3, unhealthyThreshold := 5 } }
        (fun _ => 0) 10
        { isRunning := true, lastRunTime := none, errorCount := 0,
          retryCount := 0, startupAttempts := 0 }
        [laterDueApp, earlierDueApp] true [false, false]).store
      = [laterDueApp, earlierDueApp] :=
  ⟨rfl, rfl, rfl, rfl⟩

/-- C3 amended: a dispatch failure increments `errorCount` and, when no
retry is attempted (`retryCount` has reached the ceiling) or the single
synchronous retry succeeds, processing moves on to the next application in
the batch; but when the retry re-invocation itself fails, it is not guarded
by any handler: the loop aborts with the remaining batch entries
unprocessed (the exception then reaches the cycle's outer catch and is
re-raised). -/
theorem processLoop_failure_policy (localOffset : Int → Int) (m now : Int)
    (st : SchedState) (a : Application) (rest : List Application)
    (o2 : Bool) (os : List Bool) :
    (¬ st.retryCount < m →
        processLoop localOffset m now st (a :: rest) (false :: o2 :: os)
          = processLoop localOffset m now
              { st with errorCount := st.errorCount + 1 } rest (o2 :: os)) ∧
    (st.retryCount < m → ¬ a.follow_up_settings.interval_days < 0 →
        processLoop localOffset m now st (a :: rest) (false :: true :: os)
          = { state := (processLoop localOffset m now
                  { st with errorCount := st.errorCount + 1,
                            retryCount := st.retryCount + 1 } rest os).state,
              updates := successUpdate localOffset now a
                :: (processLoop localOffset m now
                      { st with errorCount := st.errorCount + 1,
                                retryCount := st.retryCount + 1 } rest os).updates,
              created := sentRecord a
                :: (processLoop localOffset m now
                      { st with errorCount := st.errorCount + 1,
                                retryCount := st.retryCount + 1 } rest os).created,
              aborted := (processLoop localOffset m now
                  { st with errorCount := st.errorCount + 1,
                            retryCount := st.retryCount + 1 } rest os).aborted }) ∧
    (st.retryCount < m →
        (processLoop localOffset m now st (a :: rest) (false :: false :: os)).aborted
            = true ∧
        (processLoop localOffset m now st (a :: rest) (false :: false :: os)).state
            = { st with errorCount := st.errorCount + 1,
                        retryCount := st.retryCount + 1 } ∧
        (processLoop localOffset m now st (a :: rest) (false :: false :: os)).updates
            = [] ∧
        (processLoop localOffset m now st (a :: rest) (false :: false :: os)).created
            = []) := by
  refine ⟨fun h => ?_, fun h hneg => ?_, fun h => ?_⟩
  · rw [processLoop]
    simp only [List.headD_cons, List.tail_cons, sendFollowUp_fail_eq, if_neg h]
    rfl
  · rw [processLoop]
    simp only [List.headD_cons, List.tail_cons, sendFollowUp_fail_eq, if_pos h,
      sendFollowUp_success_eq localOffset now a hneg]
    rfl
  · refine ⟨?_, ?_, ?_, ?_⟩ <;>
      (rw [processLoop];
       simp only [List.headD_cons, List.tail_cons, sendFollowUp_fail_eq, if_pos h]) <;>
      rfl

/-! Claim C5. -/

/-- C5: across one poll cycle (any email outcomes, any query result), every
application in the resulting store descends from a stored application with
the same id whose `follow_up_count` is no larger — the counter is
monotonically non-decreasing — and, given the store invariant
`follow_up_count ≤ ifNull(max_count, 1)`, the resulting counter still never
exceeds it (an increment only happens to a fetched application, which the
due query admitted only with `follow_up_count < ifNull(max_count, 1)`).
Moreover an application whose counter has reached `ifNull(max_count, 1)` is
excluded from every eligibility query result, at any query time and batch
size, regardless of its `next_follow_up_date`. -/
theorem followUpCount_monotone_bounded (cfg : SchedulerConfig)
    (localOffset : Int → Int) (now : Int) (st : SchedState)
    (store : List Application) (queryOk : Bool) (outcomes : List Bool)
    (hids : (store.map Application.id).Nodup)
    (hinv : ∀ a ∈ store, a.follow_up_settings.follow_up_count
              ≤ effectiveMaxCount a.follow_up_settings) :
    (∀ a2 ∈ (processFollowUps cfg localOffset now st store queryOk outcomes).store,
        ∃ a1 ∈ store, a1.id = a2.id ∧
          a1.follow_up_settings.follow_up_count
            ≤ a2.follow_up_settings.follow_up_count ∧
          a2.follow_up_settings.follow_up_count
            ≤ effectiveMaxCount a2.follow_up_settings) ∧
    (∀ a ∈ store, ∀ t : Int, ∀ bs : Nat,
        effectiveMaxCount a.follow_up_settings
            ≤ a.follow_up_settings.follow_up_count →
        a ∉ findDueApplications store t bs) := by
  constructor
  · cases queryOk with
    | false =>
      intro a2 ha2
      exact ⟨a2, ha2, rfl, le_refl _, hinv a2 ha2⟩
    | true =>
      intro a2 ha2
      have hupd : ∀ u ∈ (processLoop localOffset cfg.retryMaxAttempts now
          { st with lastRunTime := some now }
          (findDueApplications store now cfg.batchSize) outcomes).updates,
          ∃ b ∈ findDueApplications store now cfg.batchSize,
            u = successUpdate localOffset now b :=
        fun u hu => processLoop_updates_mem localOffset cfg.retryMaxAttempts now
          (findDueApplications store now cfg.batchSize)
          { st with lastRunTime := some now } outcomes u hu
      have hstore : (processFollowUps cfg localOffset now st store true outcomes).store
          = applyUpdates store
              (processLoop localOffset cfg.retryMaxAttempts now
                { st with lastRunTime := some now }
                (findDueApplications store now cfg.batchSize) outcomes).updates :=
        (cycleFromLoop_state store _).2.2.2.2
      rw [hstore, applyUpdates] at ha2
      obtain ⟨a1, ha1, hfa⟩ := List.mem_map.mp ha2
      revert hfa
      cases hf : ((processLoop localOffset cfg.retryMaxAttempts now
          { st with lastRunTime := some now }
          (findDueApplications store now cfg.batchSize) outcomes).updates).find?
            (fun u => u.id == a1.id) with
      | none =>
        intro hfa
        exact hfa ▸ ⟨a1, ha1, rfl, le_refl _, hinv a1 ha1⟩
      | some u =>
        intro hfa
        obtain ⟨b, hb, hub⟩ := hupd u (List.mem_of_find?_eq_some hf)
        have hp := List.find?_some hf
        have hbid : u.id = a1.id := by
          have hp2 : (u.id == a1.id) = true := hp
          exact eq_of_beq hp2
        have hbstore : b ∈ store :=
          List.mem_of_mem_filter (List.take_subset _ _ hb)
        have hbelig : isEligible now b = true :=
          List.of_mem_filter (List.take_subset _ _ hb)
        have hblt : b.follow_up_settings.follow_up_count
            < effectiveMaxCount b.follow_up_settings := by
          rw [isEligible, Bool.and_assoc, Bool.and_eq_true, Bool.and_eq_true,
            decide_eq_true_eq, decide_eq_true_eq, decide_eq_true_eq] at hbelig
          exact hbelig.2.1
        have hba1 : b = a1 := by
          refine List.inj_on_of_nodup_map hids hbstore ha1 ?_
          rw [← hbid, hub]
          rfl
        subst hfa
        subst hub
        subst hba1
        refine ⟨b, hbstore, rfl, ?_, ?_⟩
        · show b.follow_up_settings.follow_up_count
            ≤ b.follow_up_settings.follow_up_count + 1
          omega
        · show b.follow_up_settings.follow_up_count + 1
            ≤ effectiveMaxCount
              (successUpdate localOffset now b).follow_up_settings
          have hmax : (successUpdate localOffset now b).follow_up_settings.max_count
              = b.follow_up_settings.max_count := rfl
          rw [effectiveMaxCount, hmax]
          rw [effectiveMaxCount] at hblt
          omega
  · intro a _ t bs hmax hmem
    have : isEligible t a = true := List.of_mem_filter (List.take_subset _ _ hmem)
    rw [isEligible, Bool.and_assoc, Bool.and_eq_true, Bool.and_eq_true,
      decide_eq_true_eq, decide_eq_true_eq, decide_eq_true_eq] at this
    omega

/-- C5 witness: a one-application store satisfying the invariant, pushed
through a cycle with a successful send. -/
theorem followUpCount_monotone_bounded_witness :
    (∀ a2 ∈ (processFollowUps
        { pollIntervalMs := 10000, batchSize := 50, retryMaxAttempts := 3,
          health := { degradedThreshold := 3, unhealthyThreshold := 5 } }
        (fun _ => 0) 1000
        { isRunning := true, lastRunTime := none, errorCount := 0,
          retryCount := 0, startupAttempts := 0 }
        [dueSampleApp] true [true]).store,
        ∃ a1 ∈ [dueSampleApp], a1.id = a2.id ∧
          a1.follow_up_settings.follow_up_count
            ≤ a2.follow_up_settings.follow_up_count ∧
          a2.follow_up_settings.follow_up_count
            ≤ effectiveMaxCount a2.follow_up_settings) ∧
    (∀ a ∈ [dueSampleApp], ∀ t : Int, ∀ bs : Nat,
        effectiveMaxCount a.follow_up_settings
            ≤ a.follow_up_settings.follow_up_count →
        a ∉ findDueApplications [dueSampleApp] t bs) :=
  followUpCount_monotone_bounded _ (fun _ => 0) 1000 _ [dueSampleApp] true [true]
    (by decide)
    (fun a ha => by
      rw [List.mem_singleton.mp ha]
      decide)

end JobBuddy
